import Mathlib

/-!
# map_simulator: the `Robot` class of `include/map_simulator/robot.h`

A shallow embedding of the inline member functions of `map_simulator::Robot`:
the laser frame accessors `x_l`, `y_l`, `theta_l`, the square footprint
`contour`, the identity operators `operator==`, `operator!=`, `isTwin`, and the
recursive XML field reader `readFrom`.

Conventions of the embedding.

* `double` and `float` values are elements of an ordered field `α`; the
  theorems take `α := ℝ`.  Rounding of floating-point arithmetic, and the
  narrowing of a `double` to a `float`, are not modelled: every arithmetic
  operation is the exact one of the field.
* `cos`, `sin` and the constant `M_PI` of `<cmath>` are parameters of the
  functions that use them; the theorems instantiate them with `Real.cos`,
  `Real.sin` and `Real.pi`.
* The conversion of a `double` to an `int` (the construction of a `cv::Point`
  from two `double` expressions) is truncation toward zero; the value is taken
  to be in the range of `int`.
* ROS handles, messages and colours carried by a `Robot` take no part in the
  functions embedded here and are left out of the state.
-/

namespace map_simulator

/-! ## Data model -/

/-- Planar pose `struct Pose2D { double x=0, y=0, theta=0; }`. -/
structure Pose2D (α : Type) [Zero α] where
  x : α := 0
  y : α := 0
  theta : α := 0

/-- The enumeration `enum class Shape{Cirle, Square}` (spelling of the source). -/
inductive Shape where
  | Cirle
  | Square
  deriving DecidableEq, Repr

/-- Floating point pixel position `cv::Point2f`. -/
structure Point2f (α : Type) where
  x : α
  y : α

/-- Integer pixel position `cv::Point`. -/
structure Point where
  x : ℤ
  y : ℤ
  deriving DecidableEq, Repr

/-- The data members of `Robot` read by its inline member functions.
`id` is a `char`; only equality of ids is ever used. -/
structure Robot (α : Type) [Zero α] where
  id : ℤ
  robot_namespace : String
  shape : Shape
  pose : Pose2D α
  linear_noise : α := 0
  angular_noise : α := 0
  laser_pose : Pose2D α
  zero_joints : Bool := false
  pos_pix : Point2f α
  radius : α

/-- Conversion of a `double` to an `int`: the fractional part is discarded
(truncation toward zero). -/
def toInt {α : Type} [LinearOrderedField α] [FloorRing α] (v : α) : ℤ :=
  if 0 ≤ v then ⌊v⌋ else ⌈v⌉

namespace Robot

section Geometry

variable {α : Type} [LinearOrderedField α] [FloorRing α]
variable (cos sin : α → α) (M_PI : α)

/-- Member `double x() const {return pose.x;}`. -/
def x (r : Robot α) : α := r.pose.x

/-- Member `double y() const {return pose.y;}`. -/
def y (r : Robot α) : α := r.pose.y

/-- Member `x_l`:
`x() + laser_pose.x*cos(laser_pose.theta) - laser_pose.y*sin(laser_pose.theta)`. -/
def x_l (r : Robot α) : α :=
  r.x + r.laser_pose.x * cos r.laser_pose.theta - r.laser_pose.y * sin r.laser_pose.theta

/-- Member `y_l`:
`y() + laser_pose.x*sin(laser_pose.theta) + laser_pose.y*cos(laser_pose.theta)`. -/
def y_l (r : Robot α) : α :=
  r.y + r.laser_pose.x * sin r.laser_pose.theta + r.laser_pose.y * cos r.laser_pose.theta

/-- Member `theta_l`: `pose.theta + laser_pose.theta`. -/
def theta_l (r : Robot α) : α := r.pose.theta + r.laser_pose.theta

/-- Member `contour`: the loop over `corner` in `{0, 1, 2, 3}` appends
`cv::Point(pos_pix.x + diagonal*cos(corner_angle), pos_pix.y + diagonal*sin(corner_angle))`
with `diagonal = radius / 1.414` and
`corner_angle = pose.theta + M_PI/4 + M_PI/2*corner`. -/
def contour (r : Robot α) : List Point :=
  let diagonal : α := r.radius / 1.414
  [0, 1, 2, 3].map fun (corner : ℤ) =>
    let corner_angle : α := r.pose.theta + M_PI / 4 + M_PI / 2 * (corner : α)
    Point.mk (toInt (r.pos_pix.x + diagonal * cos corner_angle))
             (toInt (r.pos_pix.y + diagonal * sin corner_angle))

end Geometry

section Identity

variable {α : Type} [Zero α]

/-- Member `operator==`: `return id == other.id;`. -/
def operator_eq (r other : Robot α) : Bool := r.id == other.id

/-- Member `operator!=`: `return id != other.id;`. -/
def operator_ne (r other : Robot α) : Bool := r.id != other.id

/-- Member `isTwin`, on a `std::pair<std::string, char>`:
`return robot_namespace == other.first && id != other.second;`. -/
def isTwin (r : Robot α) (other : String × ℤ) : Bool :=
  r.robot_namespace == other.1 && r.id != other.2

end Identity

end Robot

/-! ## The frame composition the accessors implement

`compose P O` is the pose `(x_l, y_l, theta_l)` of a robot with base pose `P`
and laser offset `O`; the remaining fields of the robot do not enter. -/

section Compose

variable {α : Type} [LinearOrderedField α] [FloorRing α]
variable (cos sin : α → α)

/-- A robot with the given base pose and laser offset (other fields fixed). -/
def robotAt (P O : Pose2D α) : Robot α :=
  { id := 0, robot_namespace := "", shape := Shape.Cirle, pose := P, laser_pose := O,
    pos_pix := ⟨0, 0⟩, radius := 1 }

/-- The pose `(x_l(), y_l(), theta_l())` computed for base pose `P` and offset `O`. -/
def compose (P O : Pose2D α) : Pose2D α :=
  { x := (robotAt P O).x_l cos sin
    y := (robotAt P O).y_l cos sin
    theta := (robotAt P O).theta_l }

/-- The rigid-body inverse of an offset `O`:
`(-(O.x cos O.θ + O.y sin O.θ), O.x sin O.θ - O.y cos O.θ, -O.θ)`. -/
def inv (O : Pose2D α) : Pose2D α :=
  { x := -(O.x * cos O.theta + O.y * sin O.theta)
    y := O.x * sin O.theta - O.y * cos O.theta
    theta := -O.theta }

end Compose

/-! ## TinyXML elements and the recursive field reader -/

/-- An XML element of TinyXML, reduced to what `readFrom` reads: the element
name and the ordered child nodes, each a text node (`Sum.inl`) or an element
(`Sum.inr`). -/
inductive TiXmlElement where
  | mk (value : String) (children : List (String ⊕ TiXmlElement))

namespace TiXmlElement

/-- The child nodes of an element, in document order. -/
def children : TiXmlElement → List (String ⊕ TiXmlElement)
  | mk _ cs => cs

/-- The element name (`Value()`). -/
def value : TiXmlElement → String
  | mk v _ => v

/-- TinyXML `GetText()`: the text of the first child node when that node is a
text node, a null pointer otherwise. -/
def GetText (e : TiXmlElement) : Option String :=
  match e.children with
  | Sum.inl s :: _ => some s
  | _ => none

/-- First element of a node list whose name is `name`. -/
def firstNamed (name : String) : List (String ⊕ TiXmlElement) → Option TiXmlElement
  | [] => none
  | Sum.inl _ :: rest => firstNamed name rest
  | Sum.inr c :: rest => if c.value = name then some c else firstNamed name rest

/-- TinyXML `FirstChildElement(name)`: the first child element named `name`,
a null pointer when there is none. -/
def FirstChildElement (e : TiXmlElement) (name : String) : Option TiXmlElement :=
  firstNamed name e.children

end TiXmlElement

/-- The two ways `readFrom` dereferences a null pointer. -/
inductive ReadError where
  | nullElement
  | nullText
  deriving DecidableEq, Repr

/-- Static member `Robot::readFrom(root, tag_sequence, val)`.

`root` is a possibly null `TiXmlElement*`; `extract s v` is the value left in
`val` by `std::stringstream ss(s); ss >> val;` when `val` held `v` before.
With an empty tag sequence the text of `root` is extracted into `val`;
otherwise the function calls itself on `root->FirstChildElement(front)` and the
tail of the sequence.  Dereferencing a null `root`, or building the stream from
a null `GetText()`, is an error.  The second component of the result is a ghost
counter of the recursive calls made. -/
def readFrom {T : Type} (extract : String → T → T) :
    Option TiXmlElement → List String → T → Except ReadError (T × ℕ)
  | root, [], val =>
    match root with
    | none => Except.error ReadError.nullElement
    | some e =>
      match e.GetText with
      | none => Except.error ReadError.nullText
      | some s => Except.ok (extract s val, 0)
  | root, tag :: rest, val =>
    match root with
    | none => Except.error ReadError.nullElement
    | some e =>
      match readFrom extract (e.FirstChildElement tag) rest val with
      | Except.error err => Except.error err
      | Except.ok (v, n) => Except.ok (v, n + 1)

/-- The element reached from `root` by following a tag path: for each tag in
order, the first child element of the current element with that name. -/
def descend : Option TiXmlElement → List String → Option TiXmlElement
  | cur, [] => cur
  | cur, tag :: rest => descend (cur.bind fun e => e.FirstChildElement tag) rest

/-! ## Definitions used to state the theorems -/

/-- The contract of the specification for frame composition, in its words:
the offset is rotated by the heading of the parent.  It is compared with the
accessors; no embedded function uses it. -/
def composeContract {α : Type} [LinearOrderedField α] [FloorRing α] (cos sin : α → α)
    (parent offset : Pose2D α) : Pose2D α :=
  { x := parent.x + offset.x * cos parent.theta - offset.y * sin parent.theta
    y := parent.y + offset.x * sin parent.theta + offset.y * cos parent.theta
    theta := parent.theta + offset.theta }

/-- A square robot with contour centre `c`, heading `θ` and radius `R`
(base position and laser offset at their defaults). -/
def squareRobot {α : Type} [LinearOrderedField α] [FloorRing α]
    (c : Point2f α) (θ R : α) : Robot α :=
  { id := 0, robot_namespace := "", shape := Shape.Square, pose := ⟨0, 0, θ⟩, laser_pose := {},
    pos_pix := c, radius := R }

/-- A small robot description: a `joint`, a stray text node, and two `link`
elements of which the first has two `radius` children. -/
def sampleRoot : TiXmlElement :=
  TiXmlElement.mk "robot"
    [Sum.inr (TiXmlElement.mk "joint" [Sum.inl "j"]),
     Sum.inl "stray text",
     Sum.inr (TiXmlElement.mk "link"
       [Sum.inr (TiXmlElement.mk "radius" [Sum.inl "0.5"]),
        Sum.inr (TiXmlElement.mk "radius" [Sum.inl "0.7"])]),
     Sum.inr (TiXmlElement.mk "link" [Sum.inr (TiXmlElement.mk "radius" [Sum.inl "0.9"])])]

/-! ## Laser frame accessors -/

section FrameTheorems

open Real

/-- The accessors rotate the offset by the heading of the offset itself. -/
theorem compose_eq (P O : Pose2D ℝ) :
    compose cos sin P O =
      ⟨P.x + O.x * cos O.theta - O.y * sin O.theta,
       P.y + O.x * sin O.theta + O.y * cos O.theta,
       P.theta + O.theta⟩ := rfl

/-- With the contract of the specification, composing an offset and then its
rigid-body inverse gives back the parent pose: the round trip is a property of
the composition that rotates by the parent heading. -/
theorem composeContract_inv (P O : Pose2D ℝ) :
    composeContract cos sin (composeContract cos sin P O) (inv cos sin O) = P := by
  obtain ⟨px, py, pt⟩ := P
  obtain ⟨ox, oy, ot⟩ := O
  simp only [composeContract, inv, Pose2D.mk.injEq, cos_neg, sin_neg, cos_add, sin_add]
  refine ⟨?_, ?_, by ring⟩
  · linear_combination (-(ox * cos pt - oy * sin pt)) * (cos_sq_add_sin_sq ot)
  · linear_combination (-(ox * sin pt + oy * cos pt)) * (cos_sq_add_sin_sq ot)

/-- C1, the code at base pose `(0, 0, π/2)` with laser offset `(1, 0, 0)`:
`x_l()` is `1` and `y_l()` is `0`, the offset rotated by its own heading `0`,
whereas the composition with the parent heading `π/2` gives the position
`(0, 1)`; so `x_l()` and `y_l()` both differ from the rigid-body composition. -/
theorem x_l_y_l_ignore_parent_heading :
    (robotAt (⟨0, 0, π / 2⟩ : Pose2D ℝ) ⟨1, 0, 0⟩).x_l cos sin = 1 ∧
    (robotAt (⟨0, 0, π / 2⟩ : Pose2D ℝ) ⟨1, 0, 0⟩).y_l cos sin = 0 ∧
    (composeContract cos sin (⟨0, 0, π / 2⟩ : Pose2D ℝ) ⟨1, 0, 0⟩).x = 0 ∧
    (composeContract cos sin (⟨0, 0, π / 2⟩ : Pose2D ℝ) ⟨1, 0, 0⟩).y = 1 ∧
    (robotAt (⟨0, 0, π / 2⟩ : Pose2D ℝ) ⟨1, 0, 0⟩).x_l cos sin ≠
      (0 : ℝ) + 1 * cos (π / 2) - 0 * sin (π / 2) ∧
    (robotAt (⟨0, 0, π / 2⟩ : Pose2D ℝ) ⟨1, 0, 0⟩).y_l cos sin ≠
      (0 : ℝ) + 1 * sin (π / 2) + 0 * cos (π / 2) := by
  simp [Robot.x_l, Robot.y_l, Robot.x, Robot.y, robotAt, composeContract]

/-- C4, the code at base pose `P = (0, 0, 0)` and offset `O = (1, 0, π/2)`:
composing `O` and then `inv O` with the accessors ends at `(1, 1, 0)`, not at
`P`. -/
theorem compose_inv_round_trip_fails :
    compose cos sin (compose cos sin (⟨0, 0, 0⟩ : Pose2D ℝ) ⟨1, 0, π / 2⟩)
        (inv cos sin ⟨1, 0, π / 2⟩) = ⟨1, 1, 0⟩ ∧
    compose cos sin (compose cos sin (⟨0, 0, 0⟩ : Pose2D ℝ) ⟨1, 0, π / 2⟩)
        (inv cos sin ⟨1, 0, π / 2⟩) ≠ ⟨0, 0, 0⟩ := by
  have h : compose cos sin (compose cos sin (⟨0, 0, 0⟩ : Pose2D ℝ) ⟨1, 0, π / 2⟩)
      (inv cos sin ⟨1, 0, π / 2⟩) = ⟨1, 1, 0⟩ := by
    simp [compose_eq, inv]
  rw [h]
  simp

end FrameTheorems

/-! ## The square footprint -/

section ContourTheorems

open Real

/-- Truncation leaves an integer value unchanged. -/
theorem toInt_intCast (n : ℤ) : toInt (n : ℝ) = n := by
  unfold toInt
  split <;> simp

/-- The four iterations of the loop of `contour`, written out. -/
theorem contour_eq (r : Robot ℝ) :
    r.contour cos sin π =
      [⟨toInt (r.pos_pix.x + r.radius / 1.414 * cos (r.pose.theta + π / 4 + π / 2 * 0)),
        toInt (r.pos_pix.y + r.radius / 1.414 * sin (r.pose.theta + π / 4 + π / 2 * 0))⟩,
       ⟨toInt (r.pos_pix.x + r.radius / 1.414 * cos (r.pose.theta + π / 4 + π / 2 * 1)),
        toInt (r.pos_pix.y + r.radius / 1.414 * sin (r.pose.theta + π / 4 + π / 2 * 1))⟩,
       ⟨toInt (r.pos_pix.x + r.radius / 1.414 * cos (r.pose.theta + π / 4 + π / 2 * 2)),
        toInt (r.pos_pix.y + r.radius / 1.414 * sin (r.pose.theta + π / 4 + π / 2 * 2))⟩,
       ⟨toInt (r.pos_pix.x + r.radius / 1.414 * cos (r.pose.theta + π / 4 + π / 2 * 3)),
        toInt (r.pos_pix.y + r.radius / 1.414 * sin (r.pose.theta + π / 4 + π / 2 * 3))⟩] := by
  simp [Robot.contour]

/-- At heading `-π/4` and radius `1414` the first corner is `1000` pixels to
the right of the centre `(cx, 0)`. -/
theorem contour_head_at_minus_quarter (cx : ℤ) :
    ((squareRobot (⟨cx, 0⟩ : Point2f ℝ) (-(π / 4)) 1414).contour cos sin π).head? =
      some ⟨cx + 1000, 0⟩ := by
  rw [contour_eq]
  simp only [squareRobot, List.head?_cons, Option.some.injEq, Point.mk.injEq]
  have h : -(π / 4) + π / 4 + π / 2 * 0 = 0 := by ring
  rw [h, cos_zero, sin_zero]
  have e : (cx : ℝ) + 1414 / 1.414 * 1 = ((cx + 1000 : ℤ) : ℝ) := by push_cast; norm_num
  have e0 : (0 : ℝ) + 1414 / 1.414 * 0 = ((0 : ℤ) : ℝ) := by norm_num
  rw [e, e0, toInt_intCast, toInt_intCast]
  exact ⟨rfl, rfl⟩

/-- C7 as stated fails: two robots with the same pose `(0, 0, -π/4)` and the
same radius `1414`, one with `pos_pix = (0, 0)` and one with `pos_pix = (5, 0)`,
have different contours. -/
theorem contour_differs_with_same_pose_and_radius :
    (squareRobot (⟨0, 0⟩ : Point2f ℝ) (-(π / 4)) 1414).pose =
      (squareRobot (⟨5, 0⟩ : Point2f ℝ) (-(π / 4)) 1414).pose ∧
    (squareRobot (⟨0, 0⟩ : Point2f ℝ) (-(π / 4)) 1414).radius =
      (squareRobot (⟨5, 0⟩ : Point2f ℝ) (-(π / 4)) 1414).radius ∧
    (squareRobot (⟨0, 0⟩ : Point2f ℝ) (-(π / 4)) 1414).contour cos sin π ≠
      (squareRobot (⟨5, 0⟩ : Point2f ℝ) (-(π / 4)) 1414).contour cos sin π := by
  refine ⟨rfl, rfl, ?_⟩
  intro h
  have h0 := contour_head_at_minus_quarter 0
  have h5 := contour_head_at_minus_quarter 5
  simp only [Int.cast_zero, Int.cast_ofNat] at h0 h5
  rw [h, h5] at h0
  simp at h0

/-- C7, amended: the polygon is a function of the contour centre `pos_pix`,
the heading `pose.theta` and the radius only: two robot states that agree on
these three return the same `contour()`, whatever their other fields (id,
namespace, shape, `pose.x`, `pose.y`, laser pose, noise parameters). -/
theorem contour_determined_by_centre_heading_radius (a b : Robot ℝ)
    (hc : a.pos_pix = b.pos_pix) (hθ : a.pose.theta = b.pose.theta)
    (hR : a.radius = b.radius) :
    a.contour cos sin π = b.contour cos sin π := by
  simp only [Robot.contour, hc, hθ, hR]

/-- Instance of C7 amended: two robots that differ in id, namespace, shape,
base position, noise and laser pose, and agree on centre, heading and radius. -/
theorem contour_determined_by_centre_heading_radius_witness :
    ({ id := 1, robot_namespace := "r1", shape := Shape.Cirle, pose := ⟨1, 2, π⟩,
       linear_noise := 1, angular_noise := 2, laser_pose := ⟨1, 0, 0⟩,
       pos_pix := ⟨3, 4⟩, radius := 5 } : Robot ℝ).contour cos sin π =
    ({ id := 2, robot_namespace := "r2", shape := Shape.Square, pose := ⟨-7, 9, π⟩,
       linear_noise := 0, angular_noise := 0, laser_pose := ⟨0, 1, 1⟩, zero_joints := true,
       pos_pix := ⟨3, 4⟩, radius := 5 } : Robot ℝ).contour cos sin π :=
  contour_determined_by_centre_heading_radius _ _ rfl rfl rfl

end ContourTheorems

/-! ## Robot identity -/

section IdentityTheorems

variable {α : Type} [Zero α]

/-- C8: `a == b` holds exactly when `a.id = b.id`, whatever the other fields;
`a != b` is the negation of `a == b`; and `==` is reflexive, symmetric and
transitive. -/
theorem operator_eq_iff_same_id (a b c : Robot α) :
    (a.operator_eq b = true ↔ a.id = b.id) ∧
    a.operator_ne b = !(a.operator_eq b) ∧
    a.operator_eq a = true ∧
    (a.operator_eq b = true → b.operator_eq a = true) ∧
    (a.operator_eq b = true → b.operator_eq c = true → a.operator_eq c = true) := by
  simp only [Robot.operator_eq, Robot.operator_ne, beq_iff_eq, bne, beq_self_eq_true, true_and]
  exact ⟨fun h => h.symm, fun h1 h2 => h1.trans h2⟩

/-- Instance of C8: two robots with id `7` that differ in every other field
are equal, in both directions. -/
theorem operator_eq_iff_same_id_witness :
    ({ id := 7, robot_namespace := "a", shape := Shape.Cirle, pose := ⟨1, 2, 3⟩,
       laser_pose := {}, pos_pix := ⟨0, 0⟩, radius := 1 } : Robot ℚ).operator_eq
      { id := 7, robot_namespace := "b", shape := Shape.Square, pose := ⟨4, 5, 6⟩,
        laser_pose := ⟨1, 1, 1⟩, pos_pix := ⟨9, 9⟩, radius := 2 } = true ∧
    ({ id := 7, robot_namespace := "b", shape := Shape.Square, pose := ⟨4, 5, 6⟩,
       laser_pose := ⟨1, 1, 1⟩, pos_pix := ⟨9, 9⟩, radius := 2 } : Robot ℚ).operator_eq
      { id := 7, robot_namespace := "a", shape := Shape.Cirle, pose := ⟨1, 2, 3⟩,
        laser_pose := {}, pos_pix := ⟨0, 0⟩, radius := 1 } = true :=
  ⟨by decide,
   (operator_eq_iff_same_id
      ({ id := 7, robot_namespace := "a", shape := Shape.Cirle, pose := ⟨1, 2, 3⟩,
         laser_pose := {}, pos_pix := ⟨0, 0⟩, radius := 1 } : Robot ℚ)
      { id := 7, robot_namespace := "b", shape := Shape.Square, pose := ⟨4, 5, 6⟩,
        laser_pose := ⟨1, 1, 1⟩, pos_pix := ⟨9, 9⟩, radius := 2 }
      { id := 7, robot_namespace := "b", shape := Shape.Square, pose := ⟨4, 5, 6⟩,
        laser_pose := ⟨1, 1, 1⟩, pos_pix := ⟨9, 9⟩, radius := 2 }).2.2.2.1 (by decide)⟩

/-- C9: `isTwin(other)` is true exactly when the namespace of `other` equals
`robot_namespace` and the id of `other` differs from `id`; no robot is a twin
of its own descriptor `(robot_namespace, id)`; and two robots with the same
namespace and different ids are each a twin of the descriptor of the other. -/
theorem isTwin_iff_same_namespace_other_id (r b : Robot α) (other : String × ℤ) :
    (r.isTwin other = true ↔ other.1 = r.robot_namespace ∧ other.2 ≠ r.id) ∧
    r.isTwin (r.robot_namespace, r.id) = false ∧
    (r.robot_namespace = b.robot_namespace → r.id ≠ b.id →
      r.isTwin (b.robot_namespace, b.id) = true ∧ b.isTwin (r.robot_namespace, r.id) = true) := by
  refine ⟨?_, ?_, ?_⟩
  · simp only [Robot.isTwin, Bool.and_eq_true, beq_iff_eq, bne_iff_ne, ne_eq]
    constructor
    · rintro ⟨h1, h2⟩; exact ⟨h1.symm, fun h => h2 h.symm⟩
    · rintro ⟨h1, h2⟩; exact ⟨h1.symm, fun h => h2 h.symm⟩
  · simp [Robot.isTwin]
  · intro hn hi
    simp only [Robot.isTwin, Bool.and_eq_true, beq_iff_eq, bne_iff_ne, ne_eq]
    exact ⟨⟨hn, hi⟩, ⟨hn.symm, fun h => hi h.symm⟩⟩

/-- Instance of C9: robots `1` and `2` of the namespace `ns` are twins of the
descriptor of each other. -/
theorem isTwin_iff_same_namespace_other_id_witness :
    ({ id := 1, robot_namespace := "ns", shape := Shape.Cirle, pose := {},
       laser_pose := {}, pos_pix := ⟨0, 0⟩, radius := 1 } : Robot ℚ).isTwin ("ns", 2) = true ∧
    ({ id := 2, robot_namespace := "ns", shape := Shape.Square, pose := ⟨1, 1, 0⟩,
       laser_pose := {}, pos_pix := ⟨3, 3⟩, radius := 2 } : Robot ℚ).isTwin ("ns", 1) = true :=
  (isTwin_iff_same_namespace_other_id
    ({ id := 1, robot_namespace := "ns", shape := Shape.Cirle, pose := {},
       laser_pose := {}, pos_pix := ⟨0, 0⟩, radius := 1 } : Robot ℚ)
    ({ id := 2, robot_namespace := "ns", shape := Shape.Square, pose := ⟨1, 1, 0⟩,
       laser_pose := {}, pos_pix := ⟨3, 3⟩, radius := 2 } : Robot ℚ)
    ("ns", 2)).2.2 rfl (by decide)

end IdentityTheorems

/-! ## The recursive field reader -/

section ReadFromTheorems

/-- Nothing is reached from a null element. -/
theorem descend_none (tags : List String) : descend none tags = none := by
  induction tags with
  | nil => rfl
  | cons t rest ih => simpa [descend] using ih

/-- The last tag of a path is looked up in the element reached by the tags
before it: the path is followed in order. -/
theorem descend_append (root : Option TiXmlElement) (tags : List String) (t : String) :
    descend root (tags ++ [t]) = (descend root tags).bind fun e => e.FirstChildElement t := by
  induction tags generalizing root with
  | nil => rfl
  | cons u rest ih => simpa [descend] using ih _

/-- The result of `readFrom` in closed form: it is the text of the element at
the end of the tag path, extracted into `val`, after one recursive call per tag. -/
theorem readFrom_eq {T : Type} (extract : String → T → T) (tags : List String) :
    ∀ (root : Option TiXmlElement) (val : T),
    readFrom extract root tags val =
      match descend root tags with
      | none => Except.error ReadError.nullElement
      | some e =>
        match e.GetText with
        | none => Except.error ReadError.nullText
        | some s => Except.ok (extract s val, tags.length) := by
  induction tags with
  | nil =>
    intro root val
    cases root with
    | none => rfl
    | some e => simp only [readFrom, descend, List.length_nil]
  | cons t rest ih =>
    intro root val
    cases root with
    | none => simp [readFrom, descend, descend_none]
    | some e =>
      have hd : descend (some e) (t :: rest) = descend (e.FirstChildElement t) rest := rfl
      rw [hd]
      simp only [readFrom, ih, List.length_cons]
      cases descend (e.FirstChildElement t) rest with
      | none => rfl
      | some e2 =>
        show (match (match e2.GetText with
              | none => Except.error ReadError.nullText
              | some s => Except.ok (extract s val, rest.length)) with
            | Except.error err => Except.error err
            | Except.ok (v, n) => Except.ok (v, n + 1)) =
          (match e2.GetText with
            | none => Except.error ReadError.nullText
            | some s => Except.ok (extract s val, rest.length + 1))
        cases e2.GetText with
        | none => rfl
        | some s => rfl

/-- C10: `readFrom` returns for every tag sequence, and its result is fixed by
the tag path: it is the text of the element reached by taking, for each tag in
order, the first child element with that name, extracted into `val`, after
exactly one recursive call per tag.  With an empty tag sequence it is the text
of `root` itself.  The call succeeds exactly when the whole path exists and
the element at its end has text. -/
theorem readFrom_follows_tag_path {T : Type} (extract : String → T → T)
    (root : Option TiXmlElement) (tags : List String) (val : T) :
    (readFrom extract root tags val =
      match descend root tags with
      | none => Except.error ReadError.nullElement
      | some e =>
        match e.GetText with
        | none => Except.error ReadError.nullText
        | some s => Except.ok (extract s val, tags.length)) ∧
    (∀ e s, root = some e → e.GetText = some s →
      readFrom extract root [] val = Except.ok (extract s val, 0)) ∧
    ((∃ out, readFrom extract root tags val = Except.ok out) ↔
      ∃ e s, descend root tags = some e ∧ e.GetText = some s) ∧
    (∀ v n, readFrom extract root tags val = Except.ok (v, n) →
      n = tags.length ∧
      ∃ e s, descend root tags = some e ∧ e.GetText = some s ∧ v = extract s val) := by
  have hq := readFrom_eq extract tags root val
  refine ⟨hq, ?_, ?_, ?_⟩
  · intro e s he hs
    subst he
    simp [readFrom, hs]
  · rw [hq]
    cases hd : descend root tags with
    | none => simp
    | some e =>
      cases hg : e.GetText with
      | none => simp [hg]
      | some s => simp [hg]
  · intro v n h
    rw [hq] at h
    cases hd : descend root tags with
    | none => simp [hd] at h
    | some e =>
      cases hg : e.GetText with
      | none => simp [hd, hg] at h
      | some s =>
        simp only [hd, hg, Except.ok.injEq, Prod.mk.injEq] at h
        exact ⟨h.2.symm, e, s, rfl, hg, h.1.symm⟩

/-- Instance of C10: reading the path `link`, `radius` from the sample
description succeeds with the text `0.5` of the first `radius` of the first
`link`, after two recursive calls. -/
theorem readFrom_follows_tag_path_witness :
    readFrom (fun s (_ : String) => s) (some sampleRoot) ["link", "radius"] "" =
      Except.ok ("0.5", 2) ∧
    (2 = ["link", "radius"].length ∧
      ∃ e s, descend (some sampleRoot) ["link", "radius"] = some e ∧
        e.GetText = some s ∧ "0.5" = (fun s (_ : String) => s) s "") :=
  ⟨rfl,
   (readFrom_follows_tag_path (fun s (_ : String) => s) (some sampleRoot)
      ["link", "radius"] "").2.2.2 "0.5" 2 rfl⟩

/-- A missing child along the path is an error: the sample description has no
`mass` under its first `link`, and its first `link` has no text. -/
theorem readFrom_missing_child :
    readFrom (fun s (_ : String) => s) (some sampleRoot) ["link", "mass"] "" =
      Except.error ReadError.nullElement ∧
    readFrom (fun s (_ : String) => s) (some sampleRoot) ["link"] "" =
      Except.error ReadError.nullText :=
  ⟨rfl, rfl⟩

end ReadFromTheorems

end map_simulator
